import Mathlib

/-!
# Verification of the Beef Brain core recomputation engine

Shallow embedding of `packages/bnb-core/src/index.ts` (the final version of
`updateCalculatedFields` and `validateBeefBrainData`).

Modelling conventions:
* Parsed YAML documents are modelled by `JVal`, a tree of mappings (ordered
  association lists, mirroring JavaScript object insertion order), sequences,
  strings, numbers, booleans and null.  All numbers occurring in the engine's
  arithmetic are integers, so `num` carries an `Int`; `Math.floor((s - 10) / 2)`
  on integers is `Int.fdiv (s - 10) 2`.
* `undefined` is `Option.none` at property-access boundaries; `null` is
  `JVal.null`.
* JavaScript lets code attach named properties to arrays
  (`Object.entries`/`Object.values` then list index entries first, named
  properties afterwards); `JVal.arr` therefore carries a `props` list besides
  its elements.  Documents produced by the YAML parser always have empty
  `props`.
* The external YAML parser and the external renderer (`Document#toString`
  together with the cosmetic post-processing of §4.3) are abstracted as
  function parameters `parse` and `render`; the spec places both outside the
  core ("delegated to an external structured-document library").
* In-place mutation of the parsed tree is modelled by functional update along
  the access path; YAML anchors/aliases (shared sub-objects) are outside the
  model.
* Runtime failures of the JavaScript code (property access on `null`/
  `undefined`, `Object.entries` of `undefined`, strict-mode assignment to a
  primitive) are modelled by `Except.error RunErr.typeError`.
-/

/-- A parsed JavaScript/YAML value. -/
inductive JVal where
  | null
  | bool (b : Bool)
  | num (n : Int)
  | str (s : String)
  | arr (elems : List JVal) (props : List (String × JVal))
  | obj (fields : List (String × JVal))

/-- The only runtime failure kind the modelled code can hit: a `TypeError`
(property access on `null`/`undefined`, `Object.entries(undefined)`,
strict-mode assignment to a primitive). -/
inductive RunErr where
  | typeError
deriving DecidableEq

/-- First-match lookup in an association list (JavaScript object keys are
unique, so first-match agrees with the object semantics). -/
def lookupF : List (String × JVal) → String → Option JVal
  | [], _ => none
  | (k, v) :: rest, key => if k = key then some v else lookupF rest key

/-- Replace the value of an existing key in place (preserving its position,
as JavaScript assignment to an existing property does) or append a new
key-value pair at the end (as assignment to a fresh property does). -/
def setF : List (String × JVal) → String → JVal → List (String × JVal)
  | [], key, v => [(key, v)]
  | (k, w) :: rest, key, v =>
      if k = key then (k, v) :: rest else (k, w) :: setF rest key v

/-- `Object.entries`: index entries for sequences and strings (index keys come
first in JavaScript key order), named properties afterwards; fields in
insertion order for mappings; empty for primitives. -/
def jEntries : JVal → List (String × JVal)
  | .obj fs => fs
  | .arr xs ps => (xs.enum.map fun p => (toString p.1, p.2)) ++ ps
  | .str s => s.toList.enum.map fun p => (toString p.1, .str (String.mk [p.2]))
  | _ => []

/-- `Object.values`. -/
def jValues (v : JVal) : List JVal := (jEntries v).map Prod.snd

/-- `Object.keys`. -/
def jKeys (v : JVal) : List String := (jEntries v).map Prod.fst

/-- Property read `v[k]` on a non-null value: mapping lookup, sequence index
(for a canonical numeric key) or named sequence property; `undefined`
(`none`) on primitives. -/
def getO : JVal → String → Option JVal
  | .obj fs, k => lookupF fs k
  | .arr xs ps, k =>
      match k.toNat? with
      | some i => if toString i = k then xs[i]? else lookupF ps k
      | none => lookupF ps k
  | _, _ => none

/-- Property write `v[k] = x`, strict mode: updates a mapping field or a named
sequence property; assignment to a primitive raises a `TypeError`. -/
def setO : JVal → String → JVal → Except RunErr JVal
  | .obj fs, k, x => .ok (.obj (setF fs k x))
  | .arr xs ps, k, x => .ok (.arr xs (setF ps k x))
  | _, _, _ => .error .typeError

/-- Property write used inside iteration steps whose guards already ensure the
target is a mapping or sequence (same as `setO` there); leaves primitives
unchanged. -/
def setMember : JVal → String → JVal → JVal
  | .obj fs, k, x => .obj (setF fs k x)
  | .arr xs ps, k, x => .arr xs (setF ps k x)
  | v, _, _ => v

/-- Element write `a[i] = x` on a sequence (all modelled writes are guarded by
`Array.isArray` and an in-bounds length check). -/
def setIdx : JVal → Nat → JVal → JVal
  | .arr xs ps, i, x => .arr (xs.set i x) ps
  | v, _, _ => v

/-- JavaScript truthiness. -/
def truthy : JVal → Bool
  | .null => false
  | .bool b => b
  | .num n => n != 0
  | .str s => s != ""
  | .arr _ _ => true
  | .obj _ => true

/-- Truthiness of a possibly-`undefined` value. -/
def otruthy : Option JVal → Bool
  | none => false
  | some v => truthy v

/-- `typeof v === 'object'` (true for mappings, sequences and `null`). -/
def typeofObject : JVal → Bool
  | .obj _ => true
  | .arr _ _ => true
  | .null => true
  | _ => false

/-- Mapping or sequence, excluding `null`
(`typeof v === 'object' && v !== null`). -/
def isObjOrArr : JVal → Bool
  | .obj _ => true
  | .arr _ _ => true
  | _ => false

/-- `Array.isArray`. -/
def isArr : JVal → Bool
  | .arr _ _ => true
  | _ => false

/-- The element list of a sequence (empty for other values). -/
def arrElems : JVal → List JVal
  | .arr xs _ => xs
  | _ => []

/-- The named-property list of a sequence. -/
def arrProps : JVal → List (String × JVal)
  | .arr _ ps => ps
  | _ => []

/-- `'k' in v` (own keys, index keys included). -/
def hasKey (v : JVal) (k : String) : Bool := (jKeys v).contains k

/-- Plain property access `v.k` where `v` may be `undefined` or `null`:
raises a `TypeError` in those two cases. -/
def getProp : Option JVal → String → Except RunErr (Option JVal)
  | none, _ => .error .typeError
  | some .null, _ => .error .typeError
  | some v, k => .ok (getO v k)

/-- Optional-chaining access `v?.k`: `undefined` when the receiver is
`undefined` or `null`. -/
def chain : Option JVal → String → Option JVal
  | none, _ => none
  | some .null, _ => none
  | some v, k => getO v k

/-- `Object.entries(v)` where `v` may be `undefined` or `null`: raises a
`TypeError` in those two cases. -/
def entriesE : Option JVal → Except RunErr (List (String × JVal))
  | none => .error .typeError
  | some .null => .error .typeError
  | some v => .ok (jEntries v)

/-- `x || {}` (line 115): the value itself when truthy, an empty mapping
otherwise. -/
def orElseEmpty : Option JVal → JVal
  | some v => if truthy v then v else .obj []
  | none => .obj []

/-- Strict equality test `x === n` against a number the code just computed
(`undefined` and non-numbers compare unequal). -/
def isNumEq (x : Option JVal) (n : Int) : Bool :=
  match x with
  | some (.num m) => m == n
  | _ => false

/-- Strict equality test `x === s` against a string the code just computed. -/
def isStrEq (x : Option JVal) (s : String) : Bool :=
  match x with
  | some (.str t) => t == s
  | _ => false

/-- Sum of the numeric members of a list, skipping non-numbers
(`newValue += typeof value === 'number' ? value : 0`). -/
def sumNumeric (l : List JVal) : Int :=
  l.foldl (fun acc v => match v with | .num n => acc + n | _ => acc) 0

/-! ## The carrying-capacity rule (lines 118–169) -/

/-- Closed form of the `while` loop at lines 137–142: starting from
`base = 10` and `multiplier = 1`, each iteration adds 10 to `base` and doubles
`multiplier` while `strengthScore > base`, so the loop runs
`ceil((score - 10) / 10)` times when `score > 10` and not at all otherwise. -/
def capacityMultiplier (score : Int) : Int :=
  2 ^ (((score - 10).toNat + 9) / 10)

/-- The `[light, medium, heavy, lift, drag]` list computed at lines 128–145:
a lookup table for scores 10 and 18, otherwise the score-10 row scaled by the
doubling multiplier. -/
def capacityValues (s : Int) : List Int :=
  if s = 10 then [33, 66, 100, 200, 500]
  else if s = 18 then [100, 200, 300, 600, 1500]
  else [33, 66, 100, 200, 500].map (· * capacityMultiplier s)

/-- One conditional capacity-field write (e.g. lines 148–151):
`if (cap.light !== `${light} lbs`) { cap.light = `${light} lbs`; hasChanges = true }`. -/
def capWrite (key : String) (v : Int) : Bool × JVal → Except RunErr (Bool × JVal) :=
  fun st =>
    if isStrEq (getO st.2 key) s!"{v} lbs" then pure st
    else do
      let cap' ← setO st.2 key (.str s!"{v} lbs")
      pure (true, cap')

/-- The five conditional writes at lines 146–167 applied to the
`character.movement.capacity` node. -/
def updateCapacity (s : Int) (cap : JVal) : Except RunErr (Bool × JVal) :=
  match capacityValues s with
  | [li, me, he, lf, dr] => do
      let st ← capWrite "light" li (false, cap)
      let st ← capWrite "medium" me st
      let st ← capWrite "heavy" he st
      let st ← capWrite "lift" lf st
      capWrite "drag" dr st
  | _ => pure (false, cap)

/-- Extraction of the strength score at lines 119–123: the first element of
`abilities.strength` when that entry is an array holding a number there. -/
def strengthScoreOf (abilities : JVal) : Option Int :=
  match getO abilities "strength" with
  | some st =>
      if isArr st then
        match ((arrElems st)[0]? : Option JVal) with
        | some (.num n) => some n
        | _ => none
      else none
  | none => none

/-- Functional update of the tree node reached by a key path (models the
in-place mutation of the aliased sub-object the source code holds). -/
def setPath : JVal → List String → JVal → Except RunErr JVal
  | _, [], new => .ok new
  | v, k :: ks, new =>
      match getO v k with
      | some child => do
          let child' ← setPath child ks new
          setO v k child'
      | none => setO v k new

/-- Movement carrying-capacity update logic, lines 118–169. -/
def capacitySection (data : JVal) (abilities : JVal) : Except RunErr (Bool × JVal) :=
  let cap? := chain (chain (getO data "character") "movement") "capacity"
  if otruthy cap? && otruthy (getO abilities "strength") then
    match strengthScoreOf abilities with
    | some s =>
        match cap? with
        | some cap => do
            let (chg, cap') ← updateCapacity s cap
            let data' ← setPath data ["character", "movement", "capacity"] cap'
            pure (chg, data')
        | none => pure (false, data)
    | none => pure (false, data)
  else pure (false, data)

/-! ## The combat rule (lines 173–242) -/

/-- Extraction of the strength modifier, lines 174–180 (the skills rule at
lines 248–254 repeats the identical code): `abilities.strength[1].str` when
the entry is an array whose second element is a non-null object carrying a
numeric `str` key. -/
def getStrengthMod (abilities : JVal) : Option Int :=
  match getO abilities "strength" with
  | some st =>
      if isArr st then
        match (arrElems st)[1]? with
        | some modObj =>
            if truthy modObj && typeofObject modObj && hasKey modObj "str" then
              match getO modObj "str" with
              | some (.num m) => some m
              | _ => none
            else none
        | none => none
      else none
  | none => none

/-- Helper for `replaceDamage`: drop the leading run of ASCII digits
(the greedy `[0-9]+` of the regex). -/
def dropDigits (cs : List Char) : List Char := cs.dropWhile Char.isDigit

/-- `str.replace(/1d8\+[0-9]+/, `1d8+${strengthMod}`)` (line 236): replace the
first, leftmost occurrence of `1d8+` followed by a digit run. -/
def replaceDamageAux (m : Int) : List Char → List Char
  | [] => []
  | c :: cs =>
      match c, cs with
      | '1', 'd' :: '8' :: '+' :: d :: rest =>
          if d.isDigit then
            '1' :: 'd' :: '8' :: '+' :: ((toString m).toList ++ dropDigits (d :: rest))
          else c :: replaceDamageAux m cs
      | _, _ => c :: replaceDamageAux m cs

/-- The damage-string rewrite of line 236 on `String`. -/
def replaceDamage (s : String) (m : Int) : String :=
  String.mk (replaceDamageAux m s.toList)

/-- Generic melee attack update, lines 184–201: refresh `melee._[1].str`, then
recompute `melee._[0]` as the sum of the contribution values. -/
def updateGenericMelee (m : Int) (melee? : Option JVal) : Bool × Option JVal :=
  match melee? with
  | none => (false, none)
  | some mv =>
      if truthy mv then
        match getO mv "_" with
        | some ma =>
            if truthy ma && isArr ma && (arrElems ma).length ≥ 2 then
              match (arrElems ma)[0]?, (arrElems ma)[1]? with
              | some cur, some mods =>
                  if truthy mods && typeofObject mods then
                    let c1 := !(isNumEq (getO mods "str") m)
                    let mods' := if c1 then setMember mods "str" (.num m) else mods
                    let ma1 := setIdx ma 1 mods'
                    let nv := sumNumeric (jValues mods')
                    let c2 := !(isNumEq (some cur) nv)
                    let ma2 := if c2 then setIdx ma1 0 (.num nv) else ma1
                    (c1 || c2, some (setMember mv "_" ma2))
                  else (false, some mv)
              | _, _ => (false, some mv)
            else (false, some mv)
        | none => (false, some mv)
      else (false, some mv)

/-- One iteration of the named-weapon loop, lines 203–240.  The accumulator is
the change flag together with the current `melee` node (the loop mutates the
weapon arrays it iterates over in place). -/
def weaponStep (m : Int) (acc : Bool × JVal) (entry : String × JVal) :
    Except RunErr (Bool × JVal) := do
  let (chg, melee) := acc
  let (name, w) := entry
  if name = "_" then pure (chg, melee)
  else if isArr w && (arrElems w).length ≥ 5 then
    -- lines 206–213: weaponArr[4] is usually the str modifier object
    let (chg, w) :=
      match (arrElems w)[4]? with
      | some s4 =>
          if truthy s4 && typeofObject s4 && hasKey s4 "str" then
            if !(isNumEq (getO s4 "str") m) then
              (true, setIdx w 4 (setMember s4 "str" (.num m)))
            else (chg, w)
          else (chg, w)
      | none => (chg, w)
    -- lines 215–222: propagate the generic melee bonus to weaponArr[3]._
    let g? :=
      match getO melee "_" with
      | some ga =>
          if truthy ga && isArr ga then
            match ((arrElems ga)[0]? : Option JVal) with
            | some (.num g) => some g
            | _ => none
          else none
      | none => none
    let (chg, w) :=
      match g? with
      | some g =>
          match (arrElems w)[3]? with
          | some w3 =>
              if truthy w3 && typeofObject w3 then
                if !(isNumEq (getO w3 "_") g) then
                  (true, setIdx w 3 (setMember w3 "_" (.num g)))
                else (chg, w)
              else (chg, w)
          | none => (chg, w)
      | none => (chg, w)
    -- lines 223–229: sum all numeric values in weaponArr[3]
    let atk :=
      match (arrElems w)[3]? with
      | some w3 => if truthy w3 && typeofObject w3 then sumNumeric (jValues w3) else 0
      | none => 0
    -- lines 230–233
    let (chg, w) :=
      match (arrElems w)[0]? with
      | some (.num w0) => if w0 != atk then (true, setIdx w 0 (.num atk)) else (chg, w)
      | _ => (chg, w)
    -- lines 234–238: the change flag is set unconditionally whenever the
    -- damage entry is a string, even if the replacement leaves it unchanged
    let (chg, w) :=
      match (arrElems w)[1]? with
      | some (.str s) => (true, setIdx w 1 (.str (replaceDamage s m)))
      | _ => (chg, w)
    pure (chg, setMember melee name w)
  else pure (chg, melee)

/-- Combat update logic, lines 173–242.  Note that `Object.entries(melee)` at
line 203 runs whenever the strength modifier is numeric, and raises a
`TypeError` when `attack.melee` is `undefined` or `null`. -/
def combatSection (data : JVal) (abilities : JVal) : Except RunErr (Bool × JVal) :=
  let attack? := chain (chain (getO data "character") "combat") "attack"
  if otruthy attack? && otruthy (getO abilities "strength") then
    match getStrengthMod abilities with
    | some m =>
        match attack? with
        | some attack => do
            let melee? := getO attack "melee"
            let st := updateGenericMelee m melee?
            let ents ← entriesE st.2
            match st.2 with
            | some mv => do
                let r ← ents.foldlM (weaponStep m) (false, mv)
                let data' ← setPath data ["character", "combat", "attack", "melee"] r.2
                pure (st.1 || r.1, data')
            | none => .error .typeError
        | none => pure (false, data)
    | none => pure (false, data)
  else pure (false, data)

/-! ## The skills rule (lines 246–278) -/

/-- Per-skill update, lines 257–275: only skills whose contribution map
already carries a `str` key are touched; the key is refreshed and the total
recomputed as the sum of the contribution values. -/
def updateSkillEntry (m : Int) (entry : JVal) : Bool × JVal :=
  if isArr entry && (arrElems entry).length ≥ 2 then
    match (arrElems entry)[0]?, (arrElems entry)[1]? with
    | some cur, some mods =>
        if truthy mods && typeofObject mods && hasKey mods "str" then
          let c1 := !(isNumEq (getO mods "str") m)
          let mods' := if c1 then setMember mods "str" (.num m) else mods
          let e1 := setIdx entry 1 mods'
          let nv := sumNumeric (jValues mods')
          let c2 := !(isNumEq (some cur) nv)
          let e2 := if c2 then setIdx e1 0 (.num nv) else e1
          (c1 || c2, e2)
        else (false, entry)
    | _, _ => (false, entry)
  else (false, entry)

/-- Skill update logic, lines 246–278. -/
def skillsSection (data : JVal) (abilities : JVal) : Except RunErr (Bool × JVal) :=
  let skills? := chain (getO data "character") "skills"
  if otruthy skills? && otruthy (getO abilities "strength") then
    match getStrengthMod abilities with
    | some m =>
        match skills? with
        | some sk => do
            let st := (jEntries sk).foldl
              (fun (acc : Bool × JVal) (e : String × JVal) =>
                let r := updateSkillEntry m e.2
                (acc.1 || r.1, setMember acc.2 e.1 r.2))
              (false, sk)
            let data' ← setPath data ["character", "skills"] st.2
            pure (st.1, data')
        | none => pure (false, data)
    | none => pure (false, data)
  else pure (false, data)

/-! ## The ability-resolution rule (lines 281–326) -/

/-- `totalScore` accumulation of lines 290–294: every numeric component value
whose key is not `base` is added on top of the `base` value. -/
def sumNonBase (cd : JVal) : Int :=
  (jEntries cd).foldl
    (fun acc p =>
      if p.1 ≠ "base" then
        match p.2 with
        | .num n => acc + n
        | _ => acc
      else acc)
    0

/-- The body of the ability loop, lines 284–324: with a component breakdown
(`length >= 3`) the score is recomputed from the components and the modifier
bag is rewritten to a fresh single-key object when its first key's value
differs from the recomputed modifier; with only `[score, bag]` the modifier is
recomputed from the given score. -/
def resolveAbilityEntry (e : JVal) : Bool × JVal :=
  if isArr e then
    let es := arrElems e
    if es.length ≥ 3 then
      match es[0]?, es[1]?, es[2]? with
      | some cur, some md, some cd =>
          if truthy cd && typeofObject cd then
            match getO cd "base" with
            | some (.num b) =>
                let total := b + sumNonBase cd
                let modifier := Int.fdiv (total - 10) 2
                let u1 := !(isNumEq (some cur) total)
                let e1 := if u1 then setIdx e 0 (.num total) else e
                let r :=
                  if isObjOrArr md then
                    match (jKeys md).head? with
                    | some k =>
                        if k != "" && !(isNumEq (getO md k) modifier) then
                          (true, setIdx e1 1 (.obj [(k, .num modifier)]))
                        else (false, e1)
                    | none => (false, e1)
                  else (false, e1)
                (u1 || r.1, r.2)
            | _ => (false, e)
          else (false, e)
      | _, _, _ => (false, e)
    else if es.length = 2 then
      match (es[0]? : Option JVal), es[1]? with
      | some (.num s), some md =>
          if isObjOrArr md then
            let modifier := Int.fdiv (s - 10) 2
            match (jKeys md).head? with
            | some k =>
                if k != "" && !(isNumEq (getO md k) modifier) then
                  (true, setIdx e 1 (.obj [(k, .num modifier)]))
                else (false, e)
            | none => (false, e)
          else (false, e)
      | _, _ => (false, e)
    else (false, e)
  else (false, e)

/-- Ability score calculation logic, lines 281–326. -/
def abilitiesSection (data : JVal) : Except RunErr (Bool × JVal) :=
  let ab? := chain (getO data "character") "abilities"
  if otruthy ab? then
    match ab? with
    | some ab => do
        let st := (jEntries ab).foldl
          (fun (acc : Bool × JVal) (e : String × JVal) =>
            let r := resolveAbilityEntry e.2
            (acc.1 || r.1, setMember acc.2 e.1 r.2))
          (false, ab)
        let data' ← setPath data ["character", "abilities"] st.2
        pure (st.1, data')
    | none => pure (false, data)
  else pure (false, data)

/-! ## The full pass and the exported operations -/

/-- The body of `updateCalculatedFields` between parsing and serialization
(lines 114–326): runs the four rules in source order — capacity, combat,
skills, ability resolution — and reports whether any value changed.  The
access `data.character` at line 115 is plain, so a `null` document (what the
YAML parser returns for empty or whitespace-only input) raises a
`TypeError`. -/
def updateCalculatedFieldsCore (data : JVal) : Except RunErr (Bool × JVal) := do
  let ch ← getProp (some data) "character"
  let abilities := orElseEmpty (chain ch "abilities")
  let (c1, data) ← capacitySection data abilities
  let (c2, data) ← combatSection data abilities
  let (c3, data) ← skillsSection data abilities
  let (c4, data) ← abilitiesSection data
  pure (c1 || c2 || c3 || c4, data)

/-- Error raised by the external structured-document parser. -/
structure ParseError where
  msg : String
deriving DecidableEq

/-- The conditions `updateCalculatedFields` can raise to its caller: the
propagated parser error, or a runtime `TypeError` of its own body. -/
inductive JsError where
  | parseError (e : ParseError)
  | runtimeError (e : RunErr)
deriving DecidableEq

/-- The JavaScript blank test `!yamlContent.trim()`: the string contains only
whitespace (the whitespace characters relevant to the modelled documents). -/
def isBlank (s : String) : Bool :=
  s.toList.all fun c => c = ' ' || c = '\n' || c = '\t' || c = '\r'

/-- `validateBeefBrainData` (lines 43–57), parameterized by the external YAML
parser: empty/whitespace-only content is valid, otherwise the parser
verdict decides. -/
def validateBeefBrainData (parse : String → Except ParseError JVal)
    (yamlContent : String) : Bool :=
  if isBlank yamlContent then true
  else
    match parse yamlContent with
    | .ok _ => true
    | .error _ => false

/-- `updateCalculatedFields` (lines 112–347), parameterized by the external
parser and renderer.  `render` abstracts `Document#toString` together with the
flow-style walk and the cosmetic regex post-processing of lines 330–339; the
document marker prefix of line 342 is explicit.  A parse failure propagates to
the caller (line 113 has no try/catch); if no change was recorded the original
text is returned. -/
def updateCalculatedFields (parse : String → Except ParseError JVal)
    (render : JVal → String) (yamlContent : String) : Except JsError String :=
  match parse yamlContent with
  | .error e => .error (.parseError e)
  | .ok data =>
      match updateCalculatedFieldsCore data with
      | .error r => .error (.runtimeError r)
      | .ok (hasChanges, data') =>
          if hasChanges then .ok ("\n---\n" ++ render data') else .ok yamlContent

/-! ## Projection helpers used in theorem statements -/

/-- One step of an access path: a mapping key or a sequence index. -/
inductive PathSeg where
  | key (k : String)
  | idx (i : Nat)

/-- Read the value at an access path (used only to state observations about
concrete documents). -/
def getAt : Option JVal → List PathSeg → Option JVal
  | v, [] => v
  | none, _ :: _ => none
  | some w, .key k :: ps => getAt (getO w k) ps
  | some w, .idx i :: ps => getAt ((arrElems w)[i]?) ps

/-! ## Concrete documents used as inputs -/

/-- A document whose strength entry carries a stale modifier bag
(`strength: [0, {str: 0}, {base: 18}]`, so the fresh modifier is 4) together
with a skill keyed `str` (`climb: [0, {str: 0}]`). -/
def staleDoc : JVal :=
  .obj [("character", .obj [
    ("abilities", .obj [("strength",
        .arr [.num 0, .obj [("str", .num 0)], .obj [("base", .num 18)]] [])]),
    ("skills", .obj [("climb", .arr [.num 0, .obj [("str", .num 0)]] [])])])]

/-- `staleDoc` after one pass: the ability entry is resolved
(score 18, bag `{str: 4}`) but the skill still carries the stale values the
propagation rule read from the document. -/
def staleDocPass1 : JVal :=
  .obj [("character", .obj [
    ("abilities", .obj [("strength",
        .arr [.num 18, .obj [("str", .num 4)], .obj [("base", .num 18)]] [])]),
    ("skills", .obj [("climb", .arr [.num 0, .obj [("str", .num 0)]] [])])])]

/-- `staleDoc` after two passes: the second pass propagates the refreshed
modifier into the skill. -/
def staleDocPass2 : JVal :=
  .obj [("character", .obj [
    ("abilities", .obj [("strength",
        .arr [.num 18, .obj [("str", .num 4)], .obj [("base", .num 18)]] [])]),
    ("skills", .obj [("climb", .arr [.num 4, .obj [("str", .num 4)]] [])])])]

/-- The spec's dexterity scenario: dexterity score 15 and
`initiative: [-4, {dex: -4}]`. -/
def dexDoc : JVal :=
  .obj [("character", .obj [
    ("abilities", .obj [("dexterity", .arr [.num 15, .obj [("dex", .num 0)]] [])]),
    ("combat", .obj [("initiative",
        .arr [.num (-4), .obj [("dex", .num (-4))]] [])])])]

/-- `dexDoc` after a pass: the dexterity bag itself is refreshed to `{dex: 2}`
but the initiative entry is untouched. -/
def dexDocAfter : JVal :=
  .obj [("character", .obj [
    ("abilities", .obj [("dexterity", .arr [.num 15, .obj [("dex", .num 2)]] [])]),
    ("combat", .obj [("initiative",
        .arr [.num (-4), .obj [("dex", .num (-4))]] [])])])]

/-- A fully consistent document whose `climb` skill has no `str` key yet. -/
def noStrKeyDoc : JVal :=
  .obj [("character", .obj [
    ("abilities", .obj [("strength", .arr [.num 18, .obj [("str", .num 4)]] [])]),
    ("skills", .obj [("climb", .arr [.num 4, .obj [("ranks", .num 4)]] [])])])]

/-- A fully consistent document with a named melee weapon whose damage entry
is the string `1d8+4 slashing`: no value in it differs from its recomputed
value. -/
def consistentWeaponDoc : JVal :=
  .obj [("character", .obj [
    ("abilities", .obj [("strength", .arr [.num 18, .obj [("str", .num 4)]] [])]),
    ("combat", .obj [("attack", .obj [("melee", .obj [
      ("_", .arr [.num 5, .obj [("bab", .num 1), ("str", .num 4)]] []),
      ("sword", .arr [.num 6, .str "1d8+4 slashing", .str "19-20/x2",
          .obj [("_", .num 5), ("special", .num 1)], .obj [("str", .num 4)],
          .obj [], .arr [] []] [])])])])])]

/-- A document with strength score 14 and a capacity table to fill in. -/
def capDoc14 : JVal :=
  .obj [("character", .obj [
    ("abilities", .obj [("strength", .arr [.num 14, .obj [("str", .num 2)]] [])]),
    ("movement", .obj [("capacity", .obj [
      ("light", .str "?"), ("medium", .str "?"), ("heavy", .str "?"),
      ("lift", .str "?"), ("drag", .str "?")])])])]

/-- `capDoc14` after a pass: the five fields hold the score-10 row doubled
once (the loop multiplier for score 14). -/
def capDoc14After : JVal :=
  .obj [("character", .obj [
    ("abilities", .obj [("strength", .arr [.num 14, .obj [("str", .num 2)]] [])]),
    ("movement", .obj [("capacity", .obj [
      ("light", .str "66 lbs"), ("medium", .str "132 lbs"),
      ("heavy", .str "200 lbs"),
      ("lift", .str "400 lbs"), ("drag", .str "1000 lbs")])])])]

/-! ## Auxiliary definitions used by the theorems -/

/-- The numeric value of a `JVal`, zero for non-numbers (the summand JavaScript
contributes per value in `Object.values` sums). -/
def numOr0 : JVal → Int
  | .num n => n
  | _ => 0

/-- The `light` value the code computes for a strength score. -/
def lightValue (s : Int) : Int :=
  if s = 10 then 33 else if s = 18 then 100 else 33 * capacityMultiplier s

/-- The `medium` value the code computes for a strength score. -/
def mediumValue (s : Int) : Int :=
  if s = 10 then 66 else if s = 18 then 200 else 66 * capacityMultiplier s

/-- The `heavy` value the code computes for a strength score. -/
def heavyValue (s : Int) : Int :=
  if s = 10 then 100 else if s = 18 then 300 else 100 * capacityMultiplier s

/-- The `lift` value the code computes for a strength score. -/
def liftValue (s : Int) : Int :=
  if s = 10 then 200 else if s = 18 then 600 else 200 * capacityMultiplier s

/-- The `drag` value the code computes for a strength score. -/
def dragValue (s : Int) : Int :=
  if s = 10 then 500 else if s = 18 then 1500 else 500 * capacityMultiplier s

/-- Modelled from the spec: the standard D&D 3.5e heavy-load table for
strength scores 1–29 (absent from the code, which only carries rows for
scores 10 and 18). -/
def specHeavyTable : List Int :=
  [10, 20, 30, 40, 50, 60, 70, 80, 90, 100, 115, 130, 150, 175, 200, 230,
   260, 300, 350, 400, 460, 520, 600, 700, 800, 920, 1040, 1200, 1400]

/-- Modelled from the spec: the heavy load of §4.2 — the standard table for
scores 1–29, and for scores ≥ 30 a doubling per +10 over the score-20
baseline with linear interpolation between doubling points. -/
def specHeavy (s : Int) : Int :=
  if 1 ≤ s ∧ s ≤ 29 then specHeavyTable.getD (s - 1).toNat 10
  else if 30 ≤ s then
    let extra := s - 20
    let factor := extra.toNat / 10
    let base := 400 * 2 ^ factor
    let r := extra.toNat % 10
    if r = 0 then base
    else base + (400 * 2 ^ (factor + 1) - base) * (r : Int) / 10
  else 10

/-- The component breakdown of the spec's worked strength example. -/
def exComps : List (String × JVal) :=
  [("base", .num 7), ("orc", .num 2), ("hd", .num 2), ("gloves", .num 1)]

/-- A stand-in for the external YAML parser on an input it rejects (the repo's
own test input with three colons on one unindented line is such an input). -/
def failingParse : String → Except ParseError JVal :=
  fun _ => .error ⟨"YAMLParseError: Nested mappings are not allowed"⟩

/-- A stand-in renderer (never invoked on a parse failure). -/
def stubRender : JVal → String := fun _ => ""

/-- The malformed input of the repo's own tests: three colons on one
unindented line. -/
def malformedText : String := "character: abilities: strength: [15, str: 2]"

/-! ## Helper lemmas -/

theorem sumNumeric_foldl (l : List JVal) (a : Int) :
    l.foldl (fun acc v => match v with | .num n => acc + n | _ => acc) a
      = a + sumNumeric l := by
  induction l generalizing a with
  | nil => simp [sumNumeric]
  | cons x t ih =>
      rw [sumNumeric, List.foldl_cons, List.foldl_cons, ih, ih]
      cases x <;> simp <;> ring

theorem sumNumeric_cons (x : JVal) (l : List JVal) :
    sumNumeric (x :: l) = numOr0 x + sumNumeric l := by
  rw [sumNumeric, List.foldl_cons, sumNumeric_foldl]
  cases x <;> simp [numOr0]

theorem sumNonBase_foldl (l : List (String × JVal)) (a : Int) :
    l.foldl
        (fun acc p =>
          if p.1 ≠ "base" then match p.2 with | .num n => acc + n | _ => acc
          else acc) a
      = a + sumNonBase (.obj l) := by
  induction l generalizing a with
  | nil => simp [sumNonBase, jEntries]
  | cons p t ih =>
      rw [sumNonBase, List.foldl_cons]
      show List.foldl _ _ t = a + List.foldl _ _ ((p :: t : List (String × JVal)))
      rw [List.foldl_cons, ih, ih]
      by_cases h : p.1 = "base"
      · simp [h]
      · cases hv : p.2 <;> simp [h, hv] <;> ring

theorem sumNonBase_cons (k : String) (v : JVal) (l : List (String × JVal)) :
    sumNonBase (.obj ((k, v) :: l)) =
      (if k ≠ "base" then numOr0 v else 0) + sumNonBase (.obj l) := by
  rw [sumNonBase]
  show List.foldl _ _ (((k, v) :: l : List (String × JVal))) = _
  rw [List.foldl_cons, sumNonBase_foldl]
  by_cases h : k = "base"
  · simp [h]
  · cases v <;> simp [h, numOr0]

theorem sumNonBase_of_no_base (l : List (String × JVal))
    (h : "base" ∉ l.map Prod.fst) :
    sumNonBase (.obj l) = sumNumeric (l.map Prod.snd) := by
  induction l with
  | nil => rfl
  | cons p t ih =>
      obtain ⟨k, v⟩ := p
      simp only [List.map_cons, List.mem_cons] at h
      push_neg at h
      rw [sumNonBase_cons, List.map_cons, sumNumeric_cons, ih h.2]
      simp [Ne.symm h.1]

theorem base_plus_sumNonBase (comps : List (String × JVal)) (b : Int)
    (hnd : (comps.map Prod.fst).Nodup)
    (hb : lookupF comps "base" = some (.num b)) :
    b + sumNonBase (.obj comps) = sumNumeric (comps.map Prod.snd) := by
  induction comps with
  | nil => simp [lookupF] at hb
  | cons p t ih =>
      obtain ⟨k, v⟩ := p
      simp only [List.map_cons, List.nodup_cons] at hnd
      rw [lookupF] at hb
      by_cases hk : k = "base"
      · rw [if_pos hk] at hb
        injection hb with hb
        subst hb
        rw [sumNonBase_cons, List.map_cons, sumNumeric_cons,
            sumNonBase_of_no_base t (by subst hk; exact hnd.1)]
        simp [hk, numOr0]
      · rw [if_neg hk] at hb
        rw [sumNonBase_cons, List.map_cons, sumNumeric_cons]
        have := ih hnd.2 hb
        simp only [if_pos hk] at *
        omega

theorem eq_num_of_isNumEq {v : JVal} {n : Int} (h : isNumEq (some v) n = true) :
    v = .num n := by
  cases v <;> simp [isNumEq] at h <;> simp [h]

theorem isNumEq_num (m n : Int) : isNumEq (some (.num m)) n = (m == n) := rfl

theorem isNumEq_true_iff (x : Option JVal) (n : Int) :
    isNumEq x n = true ↔ x = some (.num n) := by
  cases x with
  | none => simp [isNumEq]
  | some v => cases v <;> simp [isNumEq]

theorem isStrEq_true_iff (x : Option JVal) (s : String) :
    isStrEq x s = true ↔ x = some (.str s) := by
  cases x with
  | none => simp [isStrEq]
  | some v => cases v <;> simp [isStrEq]

theorem resolveAbilityEntry_three (s b : Int) (k : String) (v : JVal)
    (comps : List (String × JVal)) (hk : k ≠ "")
    (hb : lookupF comps "base" = some (.num b)) :
    (resolveAbilityEntry (.arr [.num s, .obj [(k, v)], .obj comps] [])).2 =
      .arr [.num (b + sumNonBase (.obj comps)),
            .obj [(k, .num (Int.fdiv (b + sumNonBase (.obj comps) - 10) 2))],
            .obj comps] [] := by
  simp only [resolveAbilityEntry, arrElems, isArr, truthy, typeofObject, isObjOrArr,
    List.length_cons, List.length_nil, List.head?, getO, jKeys, jEntries]
  norm_num
  rw [hb]
  simp only [lookupF, eq_self_iff_true, if_true, ite_true]
  by_cases hv : isNumEq (some v) (Int.fdiv (b + sumNonBase (.obj comps) - 10) 2) = true
  · have hveq := eq_num_of_isNumEq hv
    subst hveq
    by_cases hs : s = b + sumNonBase (.obj comps) <;>
      simp [hk, hs, setIdx, isNumEq_num]
  · rw [Bool.not_eq_true] at hv
    by_cases hs : s = b + sumNonBase (.obj comps) <;>
      simp [hk, hs, hv, setIdx, isNumEq_num]

theorem resolveAbilityEntry_two (s : Int) (k : String) (v : JVal) (hk : k ≠ "") :
    (resolveAbilityEntry (.arr [.num s, .obj [(k, v)]] [])).2 =
      .arr [.num s, .obj [(k, .num (Int.fdiv (s - 10) 2))]] [] := by
  simp only [resolveAbilityEntry, arrElems, isArr, isObjOrArr, List.length_cons,
    List.length_nil, List.head?, getO, jKeys, jEntries]
  norm_num
  by_cases hv : isNumEq (some v) (Int.fdiv (s - 10) 2) = true
  · have hveq := eq_num_of_isNumEq hv
    subst hveq
    simp [hk, setIdx, isNumEq_num, lookupF]
  · rw [Bool.not_eq_true] at hv
    simp [hk, hv, setIdx, lookupF]

theorem resolveAbilityEntry_three_multi (s b : Int) (k1 : String) (v1 : JVal)
    (k2 : String) (v2 : JVal) (rest : List (String × JVal))
    (comps : List (String × JVal)) (hk : k1 ≠ "")
    (hb : lookupF comps "base" = some (.num b))
    (hv : v1 ≠ .num (Int.fdiv (b + sumNonBase (.obj comps) - 10) 2)) :
    (resolveAbilityEntry
        (.arr [.num s, .obj ((k1, v1) :: (k2, v2) :: rest), .obj comps] [])).2 =
      .arr [.num (b + sumNonBase (.obj comps)),
            .obj [(k1, .num (Int.fdiv (b + sumNonBase (.obj comps) - 10) 2))],
            .obj comps] [] := by
  have hveq : isNumEq (some v1)
      (Int.fdiv (b + sumNonBase (.obj comps) - 10) 2) = false := by
    rw [← Bool.not_eq_true, isNumEq_true_iff]
    simp [hv]
  simp only [resolveAbilityEntry, arrElems, isArr, truthy, typeofObject, isObjOrArr,
    List.length_cons, List.length_nil, List.head?, getO, jKeys, jEntries, List.map_cons]
  norm_num
  rw [hb]
  simp only [lookupF, eq_self_iff_true, if_true, ite_true]
  by_cases hs : s = b + sumNonBase (.obj comps) <;>
    simp [hk, hs, hveq, setIdx, isNumEq_num]

theorem resolveAbilityEntry_two_multi (s : Int) (k1 : String) (v1 : JVal)
    (k2 : String) (v2 : JVal) (rest : List (String × JVal)) (hk : k1 ≠ "")
    (hv : v1 ≠ .num (Int.fdiv (s - 10) 2)) :
    (resolveAbilityEntry (.arr [.num s, .obj ((k1, v1) :: (k2, v2) :: rest)] [])).2 =
      .arr [.num s, .obj [(k1, .num (Int.fdiv (s - 10) 2))]] [] := by
  have hveq : isNumEq (some v1) (Int.fdiv (s - 10) 2) = false := by
    rw [← Bool.not_eq_true, isNumEq_true_iff]
    simp [hv]
  simp only [resolveAbilityEntry, arrElems, isArr, isObjOrArr, List.length_cons,
    List.length_nil, List.head?, getO, jKeys, jEntries, List.map_cons]
  norm_num
  simp [hk, hveq, setIdx, lookupF]

theorem setF_eq_self (l : List (String × JVal)) (k : String) (v : JVal)
    (h : lookupF l k = some v) : setF l k v = l := by
  induction l with
  | nil => simp [lookupF] at h
  | cons p t ih =>
      obtain ⟨k0, v0⟩ := p
      rw [lookupF] at h
      by_cases hk0 : k0 = k
      · rw [if_pos hk0] at h
        injection h with h
        simp [setF, hk0, h]
      · rw [if_neg hk0] at h
        simp [setF, hk0, ih h]

theorem lookupF_setF_self (l : List (String × JVal)) (k : String) (v : JVal) :
    lookupF (setF l k v) k = some v := by
  induction l with
  | nil => simp [setF, lookupF]
  | cons p t ih =>
      obtain ⟨k0, v0⟩ := p
      by_cases h : k0 = k <;> simp [setF, lookupF, h, ih]

theorem lookupF_setF_ne (l : List (String × JVal)) (k k' : String) (v : JVal)
    (h : k' ≠ k) : lookupF (setF l k v) k' = lookupF l k' := by
  induction l with
  | nil => simp [setF, lookupF, Ne.symm h]
  | cons p t ih =>
      obtain ⟨k0, v0⟩ := p
      by_cases h0 : k0 = k
      · subst h0
        simp [setF, lookupF, Ne.symm h]
      · by_cases h1 : k0 = k' <;> simp [setF, lookupF, h0, h1, h, ih]

theorem capWrite_spec (key : String) (v : Int) (chg : Bool)
    (cap : List (String × JVal)) :
    ∃ chg' cap', capWrite key v (chg, .obj cap) = .ok (chg', .obj cap') ∧
      lookupF cap' key = some (.str s!"{v} lbs") ∧
      ∀ k', k' ≠ key → lookupF cap' k' = lookupF cap k' := by
  unfold capWrite
  by_cases h : isStrEq (getO (.obj cap) key) s!"{v} lbs" = true
  · refine ⟨chg, cap, by simp [h, pure, Except.pure], ?_, fun k' _ => rfl⟩
    have := (isStrEq_true_iff _ _).mp h
    simpa [getO] using this
  · rw [Bool.not_eq_true] at h
    refine ⟨true, setF cap key (.str s!"{v} lbs"), by simp [h, setO], ?_, ?_⟩
    · exact lookupF_setF_self cap key _
    · intro k' hk'
      exact lookupF_setF_ne cap key k' _ hk'

theorem capacityValues_eq (s : Int) :
    capacityValues s =
      [lightValue s, mediumValue s, heavyValue s, liftValue s, dragValue s] := by
  unfold capacityValues lightValue mediumValue heavyValue liftValue dragValue
  by_cases h10 : s = 10 <;> by_cases h18 : s = 18 <;> simp [h10, h18, mul_comm]

/-! ## Claim theorems -/

/-- C1: the idempotence contract fails on the code.  On `staleDoc` the first
pass reports changes and yields `staleDocPass1`; running the pass again on
that output again reports changes (the claim says the second run detects
none) and produces a different document (`climb` total 0 becomes 4), because
ability resolution runs after, not before, propagation. -/
theorem c1_second_pass_detects_changes :
    updateCalculatedFieldsCore staleDoc = .ok (true, staleDocPass1) ∧
    updateCalculatedFieldsCore staleDocPass1 = .ok (true, staleDocPass2) ∧
    getAt (some staleDocPass1)
        [.key "character", .key "skills", .key "climb", .idx 0] = some (.num 0) ∧
    getAt (some staleDocPass2)
        [.key "character", .key "skills", .key "climb", .idx 0] = some (.num 4) ∧
    staleDocPass1 ≠ staleDocPass2 :=
  ⟨rfl, rfl, rfl, rfl, by simp [staleDocPass1, staleDocPass2]⟩

/-- C2: propagation does not read the freshly recomputed modifier.  After one
pass over `staleDoc` the strength bag holds the fresh modifier 4, but the
`str` contribution propagated into the `climb` skill is the document's stored
modifier 0, because the ability-resolution loop (lines 281–326) runs after
the propagation rules (lines 173–278). -/
theorem c2_propagation_reads_stored_modifier :
    updateCalculatedFieldsCore staleDoc = .ok (true, staleDocPass1) ∧
    getAt (some staleDocPass1)
        [.key "character", .key "abilities", .key "strength", .idx 1, .key "str"] =
      some (.num 4) ∧
    getAt (some staleDocPass1)
        [.key "character", .key "skills", .key "climb", .idx 1, .key "str"] =
      some (.num 0) ∧
    JVal.num 0 ≠ JVal.num 4 :=
  ⟨rfl, rfl, rfl, by simp⟩

/-- C3: the code contains no dexterity propagation at all.  On the spec's
example (dexterity score 15, `initiative: [-4, {dex: -4}]`) the pass refreshes
the dexterity bag itself but leaves initiative exactly as it was, instead of
the claimed `[2, {dex: 2}]`. -/
theorem c3_no_dexterity_propagation :
    updateCalculatedFieldsCore dexDoc = .ok (true, dexDocAfter) ∧
    getAt (some dexDocAfter) [.key "character", .key "combat", .key "initiative"] =
      some (.arr [.num (-4), .obj [("dex", .num (-4))]] []) ∧
    JVal.arr [.num (-4), .obj [("dex", .num (-4))]] [] ≠
      JVal.arr [.num 2, .obj [("dex", .num 2)]] [] :=
  ⟨rfl, rfl, by simp⟩

/-- C4: ability resolution.  For a three-element entry whose components carry
a numeric `base`, the resolved entry holds the sum of all numeric component
values as its score and the floored modifier `(score - 10) / 2` under the
bag's preserved single key; for a two-element entry the score is taken as
given and only the modifier is recomputed. -/
theorem c4_ability_resolution :
    (∀ (s b : Int) (k : String) (v : JVal) (comps : List (String × JVal)),
        k ≠ "" → (comps.map Prod.fst).Nodup →
        lookupF comps "base" = some (.num b) →
        (resolveAbilityEntry (.arr [.num s, .obj [(k, v)], .obj comps] [])).2 =
          .arr [.num (sumNumeric (comps.map Prod.snd)),
                .obj [(k, .num (Int.fdiv (sumNumeric (comps.map Prod.snd) - 10) 2))],
                .obj comps] []) ∧
    (∀ (s : Int) (k : String) (v : JVal),
        k ≠ "" →
        (resolveAbilityEntry (.arr [.num s, .obj [(k, v)]] [])).2 =
          .arr [.num s, .obj [(k, .num (Int.fdiv (s - 10) 2))]] []) := by
  constructor
  · intro s b k v comps hk hnd hb
    rw [← base_plus_sumNonBase comps b hnd hb]
    exact resolveAbilityEntry_three s b k v comps hk hb
  · intro s k v hk
    exact resolveAbilityEntry_two s k v hk

/-- C4 witness: the spec's worked example
`strength: [0, {str: 0}, {base: 7, orc: 2, hd: 2, gloves: 1}]` resolves to
`[12, {str: 1}, …]`, and a two-element entry with score 9 gets modifier −1. -/
theorem c4_witness :
    (("str" : String) ≠ "" ∧ (exComps.map Prod.fst).Nodup ∧
      lookupF exComps "base" = some (.num 7)) ∧
    (resolveAbilityEntry (.arr [.num 0, .obj [("str", .num 0)], .obj exComps] [])).2 =
      .arr [.num 12, .obj [("str", .num 1)], .obj exComps] [] ∧
    (resolveAbilityEntry (.arr [.num 9, .obj [("mod", .num 0)]] [])).2 =
      .arr [.num 9, .obj [("mod", .num (-1))]] [] := by
  refine ⟨⟨by decide, by decide, rfl⟩, ?_, ?_⟩
  · exact c4_ability_resolution.1 0 7 "str" (.num 0) exComps (by decide) (by decide) rfl
  · exact c4_ability_resolution.2 9 "mod" (.num 0) (by decide)

/-- C5 counterexample: at strength 14 the code writes `heavy: "200 lbs"`
although the standard D&D 3.5e table (which the claim asserts) gives 175, and
writes `medium: "132 lbs"` although `floor(2*heavy/3)` of the written heavy
load is 133 — the claim's table and derivation formulas both fail. -/
theorem c5_counterexample :
    updateCalculatedFieldsCore capDoc14 = .ok (true, capDoc14After) ∧
    getAt (some capDoc14After)
        [.key "character", .key "movement", .key "capacity", .key "heavy"] =
      some (.str "200 lbs") ∧
    specHeavy 14 = 175 ∧ ("200 lbs" : String) ≠ "175 lbs" ∧
    getAt (some capDoc14After)
        [.key "character", .key "movement", .key "capacity", .key "medium"] =
      some (.str "132 lbs") ∧
    Int.fdiv (2 * 200) 3 = 133 ∧ ("132 lbs" : String) ≠ "133 lbs" :=
  ⟨rfl, rfl, by decide, by decide, rfl, by decide, by decide⟩

/-- C5 (amended): applying the capacity rule to a capacity mapping with
strength score `s` leaves each of the five fields holding `"<n> lbs"` where
the row is `[33, 66, 100, 200, 500]` for score 10, `[100, 200, 300, 600,
1500]` for score 18 (so strength 18 yields the claimed example values), and
otherwise the score-10 row multiplied by the doubling multiplier
`2 ^ ceil(max(0, s - 10) / 10)` of the code's while loop — not the standard
step table, and the medium/light values are scaled independently rather than
derived from the heavy load. -/
theorem c5_capacity_amended (s : Int) (cap : List (String × JVal)) :
    ∃ chg cap', updateCapacity s (.obj cap) = .ok (chg, .obj cap') ∧
      lookupF cap' "light" = some (.str s!"{lightValue s} lbs") ∧
      lookupF cap' "medium" = some (.str s!"{mediumValue s} lbs") ∧
      lookupF cap' "heavy" = some (.str s!"{heavyValue s} lbs") ∧
      lookupF cap' "lift" = some (.str s!"{liftValue s} lbs") ∧
      lookupF cap' "drag" = some (.str s!"{dragValue s} lbs") := by
  obtain ⟨c1, cap1, e1, l1, f1⟩ := capWrite_spec "light" (lightValue s) false cap
  obtain ⟨c2, cap2, e2, l2, f2⟩ := capWrite_spec "medium" (mediumValue s) c1 cap1
  obtain ⟨c3, cap3, e3, l3, f3⟩ := capWrite_spec "heavy" (heavyValue s) c2 cap2
  obtain ⟨c4, cap4, e4, l4, f4⟩ := capWrite_spec "lift" (liftValue s) c3 cap3
  obtain ⟨c5, cap5, e5, l5, f5⟩ := capWrite_spec "drag" (dragValue s) c4 cap4
  refine ⟨c5, cap5, ?_, ?_, ?_, ?_, ?_, l5⟩
  · rw [updateCapacity, capacityValues_eq]
    simp only [bind, Except.bind, e1, e2, e3, e4, e5]
  · rw [f5 _ (by decide), f4 _ (by decide), f3 _ (by decide), f2 _ (by decide)]
    exact l1
  · rw [f5 _ (by decide), f4 _ (by decide), f3 _ (by decide)]
    exact l2
  · rw [f5 _ (by decide), f4 _ (by decide)]
    exact l3
  · rw [f5 _ (by decide)]
    exact l4

/-- C6 counterexample: with a consistent strength entry and a `climb` skill
whose contribution map has no `str` key, the pass changes nothing — in
particular it does not add the claimed strength contribution to `climb`. -/
theorem c6_counterexample :
    updateCalculatedFieldsCore noStrKeyDoc = .ok (false, noStrKeyDoc) ∧
    getAt (some noStrKeyDoc)
        [.key "character", .key "skills", .key "climb", .idx 1, .key "str"] = none :=
  ⟨rfl, rfl⟩

/-- C6 (amended): the skill rule touches exactly the skills whose contribution
map already contains a `str` key (there is no fixed climb/jump/swim set in the
code); for such a skill the key is overwritten with the strength modifier and
the total becomes the sum of the contribution values. -/
theorem c6_skill_propagation_amended (m : Int) (cur : JVal)
    (bag : List (String × JVal)) (hstr : hasKey (.obj bag) "str" = true) :
    (updateSkillEntry m (.arr [cur, .obj bag] [])).2 =
      .arr [.num (sumNumeric ((setF bag "str" (.num m)).map Prod.snd)),
            .obj (setF bag "str" (.num m))] [] := by
  simp only [updateSkillEntry, arrElems, isArr, truthy, typeofObject,
    List.length_cons, List.length_nil, getO, jValues, jEntries]
  norm_num
  rw [hstr]
  by_cases hc1 : isNumEq (lookupF bag "str") m = true
  · have hlk := (isNumEq_true_iff _ _).mp hc1
    rw [setF_eq_self bag "str" (.num m) hlk]
    by_cases hc2 : isNumEq (some cur) (sumNumeric (bag.map Prod.snd)) = true
    · have hcur := eq_num_of_isNumEq hc2
      subst hcur
      simp [hc1, hc2, setIdx]
    · rw [Bool.not_eq_true] at hc2
      simp [hc1, hc2, setIdx]
  · rw [Bool.not_eq_true] at hc1
    by_cases hc2 : isNumEq (some cur)
        (sumNumeric ((setF bag "str" (.num m)).map Prod.snd)) = true
    · have hcur := eq_num_of_isNumEq hc2
      subst hcur
      simp [hc1, hc2, setIdx, setMember, isNumEq_num]
    · rw [Bool.not_eq_true] at hc2
      simp [hc1, hc2, setIdx, setMember]

/-- C6 witness: the spec's example `climb: [3, {str: 2, acp: -3, ranks: 4}]`
with strength modifier 4 becomes `[5, {str: 4, acp: -3, ranks: 4}]`. -/
theorem c6_witness :
    hasKey (.obj [("str", JVal.num 2), ("acp", JVal.num (-3)),
        ("ranks", JVal.num 4)]) "str" = true ∧
    (updateSkillEntry 4 (.arr [.num 3,
        .obj [("str", .num 2), ("acp", .num (-3)), ("ranks", .num 4)]] [])).2 =
      .arr [.num 5, .obj [("str", .num 4), ("acp", .num (-3)), ("ranks", .num 4)]] [] := by
  refine ⟨rfl, ?_⟩
  exact c6_skill_propagation_amended 4 (.num 3)
    [("str", .num 2), ("acp", .num (-3)), ("ranks", .num 4)] rfl

/-- C7: a `null` document — what the external YAML parser returns for empty
or whitespace-only input — makes the pass raise a `TypeError` at the plain
`data.character` access of line 115 instead of returning the input
unchanged. -/
theorem c7_null_document_type_error :
    updateCalculatedFieldsCore JVal.null = .error .typeError := rfl

/-- C8: the change flag is set although no value differs from its recomputed
value.  On a fully consistent document with a named melee weapon whose damage
entry is a string, the pass returns the input tree unchanged but still
reports `hasChanges = true` (the unconditional flag of lines 236–237), so the
document is re-serialized even though nothing differed. -/
theorem c8_change_recorded_without_difference :
    updateCalculatedFieldsCore consistentWeaponDoc = .ok (true, consistentWeaponDoc) :=
  rfl

/-- C9: `validate` returns true exactly when the input is blank or the
external parser accepts it, returns false on any parse failure of a non-blank
input, and on the same input `updateCalculatedFields` propagates the parser's
error to the caller as a parse-error condition instead of returning a
result. -/
theorem c9_validate_and_parse_error_propagation
    (parse : String → Except ParseError JVal) (render : JVal → String)
    (text : String) :
    (validateBeefBrainData parse text = true ↔
        (isBlank text = true ∨ ∃ d, parse text = .ok d)) ∧
    (∀ e, parse text = .error e → isBlank text = false →
        validateBeefBrainData parse text = false) ∧
    (∀ e, parse text = .error e →
        updateCalculatedFields parse render text = .error (.parseError e)) := by
  unfold validateBeefBrainData updateCalculatedFields
  refine ⟨?_, ?_, ?_⟩
  · by_cases hB : isBlank text <;> cases hp : parse text <;> simp [hB, hp]
  · intro e hp hB
    simp [hB, hp]
  · intro e hp
    simp [hp]

/-- C9 witness: on the repo's malformed test input (three colons on one
unindented line), with a parser that rejects it, `validate` is false and
`updateCalculatedFields` surfaces the parse error. -/
theorem c9_witness :
    validateBeefBrainData failingParse malformedText = false ∧
    updateCalculatedFields failingParse stubRender malformedText =
      .error (.parseError ⟨"YAMLParseError: Nested mappings are not allowed"⟩) := by
  have h := c9_validate_and_parse_error_propagation failingParse stubRender malformedText
  exact ⟨h.2.1 _ rfl rfl, h.2.2 _ rfl⟩

/-- C10: whenever the modifier bag holds two or more keys and the recomputed
modifier differs from the value under the bag's first key, the entire bag is
replaced by the single-key mapping `{firstKey: modifier}` — every key after
the first is dropped — in both the three-element (component-driven) and the
two-element (score-driven) entry shapes. -/
theorem c10_extra_bag_keys_dropped :
    (∀ (s b : Int) (k1 : String) (v1 : JVal) (k2 : String) (v2 : JVal)
        (rest comps : List (String × JVal)),
        k1 ≠ "" →
        lookupF comps "base" = some (.num b) →
        v1 ≠ .num (Int.fdiv (b + sumNonBase (.obj comps) - 10) 2) →
        (resolveAbilityEntry
            (.arr [.num s, .obj ((k1, v1) :: (k2, v2) :: rest), .obj comps] [])).2 =
          .arr [.num (b + sumNonBase (.obj comps)),
                .obj [(k1, .num (Int.fdiv (b + sumNonBase (.obj comps) - 10) 2))],
                .obj comps] []) ∧
    (∀ (s : Int) (k1 : String) (v1 : JVal) (k2 : String) (v2 : JVal)
        (rest : List (String × JVal)),
        k1 ≠ "" → v1 ≠ .num (Int.fdiv (s - 10) 2) →
        (resolveAbilityEntry (.arr [.num s, .obj ((k1, v1) :: (k2, v2) :: rest)] [])).2 =
          .arr [.num s, .obj [(k1, .num (Int.fdiv (s - 10) 2))]] []) :=
  ⟨fun s b k1 v1 k2 v2 rest comps hk hb hv =>
      resolveAbilityEntry_three_multi s b k1 v1 k2 v2 rest comps hk hb hv,
    fun s k1 v1 k2 v2 rest hk hv =>
      resolveAbilityEntry_two_multi s k1 v1 k2 v2 rest hk hv⟩

/-- C10 witness: `[0, {str: 0, luck: 1}, {base: 18}]` resolves to
`[18, {str: 4}, {base: 18}]` (the `luck` key is dropped), and
`[18, {str: 0, bonus: 3}]` becomes `[18, {str: 4}]` (the `bonus` key is
dropped). -/
theorem c10_witness :
    (("str" : String) ≠ "" ∧
      lookupF [("base", JVal.num 18)] "base" = some (.num 18) ∧
      JVal.num 0 ≠ JVal.num
        (Int.fdiv (18 + sumNonBase (.obj [("base", JVal.num 18)]) - 10) 2)) ∧
    (resolveAbilityEntry (.arr [.num 0,
        .obj [("str", .num 0), ("luck", .num 1)], .obj [("base", .num 18)]] [])).2 =
      .arr [.num 18, .obj [("str", .num 4)], .obj [("base", .num 18)]] [] ∧
    (resolveAbilityEntry (.arr [.num 18,
        .obj [("str", .num 0), ("bonus", .num 3)]] [])).2 =
      .arr [.num 18, .obj [("str", .num 4)]] [] := by
  have h4 : Int.fdiv (18 + sumNonBase (JVal.obj [("base", JVal.num 18)]) - 10) 2 = 4 := rfl
  have hne : JVal.num 0 ≠ JVal.num
      (Int.fdiv (18 + sumNonBase (JVal.obj [("base", JVal.num 18)]) - 10) 2) := by
    rw [h4]
    simp
  have hne2 : JVal.num 0 ≠ JVal.num (Int.fdiv (18 - 10) 2) := by
    rw [show Int.fdiv (18 - 10) 2 = 4 from rfl]
    simp
  refine ⟨⟨by decide, rfl, hne⟩, ?_, ?_⟩
  · exact c10_extra_bag_keys_dropped.1 0 18 "str" (.num 0) "luck" (.num 1) []
      [("base", .num 18)] (by decide) rfl hne
  · exact c10_extra_bag_keys_dropped.2 18 "str" (.num 0) "bonus" (.num 3) []
      (by decide) hne2
